import Mathlib

/-!
Verification of the MSL (Macro Scripting Language) lexer/parser core of
the msl-mcp-server repository, against its natural-language specification.

The embedded sources are:
  * `src/mslmcpserver/msl/msl_lexer.py`  (class `MSLLexer`, function
    `validate_msl_syntax`),
  * `src/mslmcpserver/msl/msl_parser.py` (class `MSLParser`),
  * `src/mslmcpserver/msl_ast.py`        (class `MSLNode` and subclasses).

Modelling conventions:
  * Python strings are `List Char`; the lexer state keeps the still-unread
    suffix `rest` (the Python code only ever reads `self.text[self.position:]`)
    together with the absolute offset `position` and the 1-based `line` and
    `column` counters of `MSLLexer.__init__`.
  * Character classes are modelled at ASCII precision: Python's `str.isdigit`,
    `str.isalpha`, `\d`, `[a-zA-Z_]`, `\s` and `str.lower` are rendered with
    the corresponding ASCII predicates.  Every concrete input appearing in the
    theorems below is pure ASCII, where the two semantics agree.
  * The scanning loop of `MSLLexer.tokenize` is given a structural fuel
    argument so that concrete runs reduce inside the kernel; the fuel is the
    length of the unread input, which is sufficient because every loop
    iteration consumes at least one character (theorem `lexRun_consumes_all`).
-/

namespace MSL

/-- Token kinds, exactly the `TokenType` enum of msl_lexer.py (lines 26-59). -/
inductive TokenType where
  | KEY | NUMBER | VARIABLE | MOUSE_COORD | WHEEL
  | COMMA | PLUS | GREATER | PIPE | TILDE | STAR | AMPERSAND
  | LPAREN | RPAREN | LBRACKET | RBRACKET | LBRACE | RBRACE
  | LANGLE | RANGLE
  | WHITESPACE | NEWLINE | EOF | UNKNOWN | COMMENT
  deriving DecidableEq, Repr

/-- A token: kind, literal text, 1-based line/column of its first character,
and absolute offset (`Token` dataclass, msl_lexer.py lines 62-75). -/
structure Token where
  type : TokenType
  value : List Char
  line : Nat
  column : Nat
  position : Nat
  deriving DecidableEq, Repr

/-- Mutable cursor state of one `MSLLexer` instance.  `rest` is
`self.text[self.position:]`; the Python methods never read earlier text. -/
structure Lexer where
  rest : List Char
  position : Nat
  line : Nat
  column : Nat
  deriving DecidableEq, Repr

/-- `MSLLexer.__init__(text)`: position 0, line 1, column 1. -/
def mkLexer (text : String) : Lexer :=
  { rest := text.data, position := 0, line := 1, column := 1 }

/-- `MSLLexer.advance` (msl_lexer.py lines 151-161): move one character
forward, tracking line/column; at end of text it is a no-op. -/
def advance (st : Lexer) : Lexer :=
  match st.rest with
  | [] => st
  | c :: r =>
      if c = '\n' then
        { rest := r, position := st.position + 1, line := st.line + 1, column := 1 }
      else
        { rest := r, position := st.position + 1, line := st.line, column := st.column + 1 }

/-- `read_string` advances once per matched character
(msl_lexer.py lines 168-175). -/
def advanceN : Nat → Lexer → Lexer
  | 0, st => st
  | n + 1, st => advanceN n (advance st)

/-- Python's `\s` class, at ASCII precision. -/
def isPySpace (c : Char) : Bool :=
  c = ' ' || c = '\t' || c = '\n' || c = '\r' || c = '\x0b' || c = '\x0c'

/-- First character of an identifier: the class `[a-zA-Z_]`. -/
def isIdentStart (c : Char) : Bool := c.isAlpha || c = '_'

/-- Later characters of an identifier: the class `[a-zA-Z0-9_]`. -/
def isIdentChar (c : Char) : Bool := c.isAlpha || c.isDigit || c = '_'

/-- Anchored match of the pattern `[a-zA-Z_][a-zA-Z0-9_]*`
(the `identifier` entry of `self.patterns`, msl_lexer.py line 131). -/
def matchIdentifier : List Char → Option (List Char)
  | c :: r => if isIdentStart c then some (c :: r.takeWhile isIdentChar) else none
  | [] => none

/-- Anchored match of `\d+(\.\d+)?` (the `number` pattern, line 129). -/
def matchNumber (l : List Char) : Option (List Char) :=
  let ds := l.takeWhile Char.isDigit
  if ds.isEmpty then none
  else
    match l.drop ds.length with
    | '.' :: r2 =>
        let fs := r2.takeWhile Char.isDigit
        if fs.isEmpty then some ds else some (ds ++ '.' :: fs)
    | _ => some ds

/-- Anchored match of `#.*` (the `comment` pattern, line 135):
`#` through end of line, `.` not matching a newline. -/
def matchComment : List Char → Option (List Char)
  | '#' :: r => some ('#' :: r.takeWhile fun c => c ≠ '\n')
  | _ => none

/-- Anchored match of `\$([a-zA-Z_][a-zA-Z0-9_]*)` (the `variable` pattern,
line 127); returns capture group 1 (the name without the sigil). -/
def matchVariable : List Char → Option (List Char)
  | '$' :: r => matchIdentifier r
  | _ => none

/-- Anchored match of `@\s*\(\s*(\d+)\s*,\s*(\d+)\s*\)` (the `mouse_coord`
pattern, line 125).  Since the character classes involved are pairwise
disjoint, the greedy regex is equivalent to this deterministic scan.
Returns the two digit groups and the length of the whole match. -/
def matchMouseCoord (l : List Char) : Option (List Char × List Char × Nat) :=
  match l with
  | '@' :: r0 =>
    match r0.dropWhile isPySpace with
    | '(' :: r2 =>
      let r3 := r2.dropWhile isPySpace
      let xs := r3.takeWhile Char.isDigit
      if xs.isEmpty then none
      else
        match (r3.drop xs.length).dropWhile isPySpace with
        | ',' :: r5 =>
          let r6 := r5.dropWhile isPySpace
          let ys := r6.takeWhile Char.isDigit
          if ys.isEmpty then none
          else
            match (r6.drop ys.length).dropWhile isPySpace with
            | ')' :: r8 => some (xs, ys, l.length - r8.length)
            | _ => none
        | _ => none
    | _ => none
  | _ => none

/-- `MSLLexer.skip_whitespace` (lines 163-166): advance once per leading
space or tab. -/
def skipWhitespace (st : Lexer) : Lexer :=
  advanceN (st.rest.takeWhile fun c => c = ' ' || c = '\t').length st

/-- `MSLLexer.tokenize_mouse_coord` (lines 188-202): on a regex match,
one `MOUSE_COORD` token whose value is the normalized text
`@(x,y)`; otherwise a one-character `UNKNOWN` token for the `@`. -/
def tokenizeMouseCoord (st : Lexer) : Token × Lexer :=
  match matchMouseCoord st.rest with
  | some (xs, ys, len) =>
      (⟨.MOUSE_COORD, '@' :: '(' :: (xs ++ ',' :: (ys ++ [')'])),
        st.line, st.column, st.position⟩, advanceN len st)
  | none =>
      (⟨.UNKNOWN, ['@'], st.line, st.column, st.position⟩, advance st)

/-- `MSLLexer.tokenize_variable` (lines 204-217): a `VARIABLE` token whose
value is the identifier without the `$` sigil, else `UNKNOWN` `$`. -/
def tokenizeVariable (st : Lexer) : Token × Lexer :=
  match matchVariable st.rest with
  | some name =>
      (⟨.VARIABLE, name, st.line, st.column, st.position⟩,
       advanceN (name.length + 1) st)
  | none =>
      (⟨.UNKNOWN, ['$'], st.line, st.column, st.position⟩, advance st)

/-- `MSLLexer.tokenize_number` (lines 219-230). -/
def tokenizeNumber (st : Lexer) : Option Token × Lexer :=
  match matchNumber st.rest with
  | some m => (some ⟨.NUMBER, m, st.line, st.column, st.position⟩, advanceN m.length st)
  | none => (none, st)

/-- `MSLLexer.tokenize_identifier` (lines 232-249): case-folded; the values
`wheel_up`/`wheel_down` become `WHEEL` tokens, anything else `KEY`. -/
def tokenizeIdentifier (st : Lexer) : Option Token × Lexer :=
  match matchIdentifier st.rest with
  | some m =>
      let ident := m.map Char.toLower
      let ty : TokenType :=
        if ident = "wheel_up".data || ident = "wheel_down".data then .WHEEL else .KEY
      (some ⟨ty, ident, st.line, st.column, st.position⟩, advanceN m.length st)
  | none => (none, st)

/-- `MSLLexer.tokenize_comment` (lines 251-262). -/
def tokenizeComment (st : Lexer) : Option Token × Lexer :=
  match matchComment st.rest with
  | some m => (some ⟨.COMMENT, m, st.line, st.column, st.position⟩, advanceN m.length st)
  | none => (none, st)

/-- `MSLLexer.tokenize_angle_bracket` (lines 264-278): `<` becomes `LANGLE`,
while `>` ALWAYS becomes `GREATER` — the `RANGLE` member of the enum is never
produced (the code defers the fade-end/hold-chain ambiguity to the parser). -/
def tokenizeAngleBracket (st : Lexer) : Option Token × Lexer :=
  match st.rest with
  | [] => (none, st)
  | c :: _ =>
      if c = '<' then
        (some ⟨.LANGLE, [c], st.line, st.column, st.position⟩, advance st)
      else if c = '>' then
        (some ⟨.GREATER, [c], st.line, st.column, st.position⟩, advance st)
      else (none, advance st)

/-- The `single_char_tokens` mapping of `tokenize_single_char`
(lines 292-309); unmapped characters fall back to `UNKNOWN`. -/
def singleCharType (c : Char) : TokenType :=
  if c = ',' then .COMMA
  else if c = '+' then .PLUS
  else if c = '|' then .PIPE
  else if c = '~' then .TILDE
  else if c = '*' then .STAR
  else if c = '&' then .AMPERSAND
  else if c = '(' then .LPAREN
  else if c = ')' then .RPAREN
  else if c = '[' then .LBRACKET
  else if c = ']' then .RBRACKET
  else if c = '\x7b' then .LBRACE
  else if c = '\x7d' then .RBRACE
  else if c = '\n' then .NEWLINE
  else .UNKNOWN

/-- A character the scanning loop of `tokenize` recognizes as starting some
lexical form: whitespace, a comment, a mouse coordinate, a variable, an
angle bracket, a number, an identifier, or an entry of the
`single_char_tokens` table.  Any other character reaches the `UNKNOWN`
fallback of `tokenize_single_char`. -/
def recognizedChar (c : Char) : Bool :=
  c = ' ' || c = '\t' || c = '#' || c = '@' || c = '$' || c = '<' || c = '>' ||
  c.isDigit || isIdentStart c || !(singleCharType c = .UNKNOWN)

/-- `MSLLexer.tokenize_single_char` (lines 280-310).  Only with the cursor at
end of input does it build an `EOF` token; the scanning loop never calls it
there. -/
def tokenizeSingleChar (st : Lexer) : Token × Lexer :=
  match st.rest with
  | [] => (⟨.EOF, [], st.line, st.column, st.position⟩, st)
  | c :: _ => (⟨singleCharType c, [c], st.line, st.column, st.position⟩, advance st)

/-- One iteration of the `while` loop of `MSLLexer.tokenize` (msl_lexer.py
lines 316-377), with the cursor on at least one unread character: the token
appended during that iteration (`none` for the whitespace branch and the
`if token:` guards that skip appending) and the cursor state afterwards.
The two inner fall-through cases replicate the Python fall-through from the
digit branch and the identifier branch to `tokenize_single_char` (both are
unreachable at ASCII precision, where a digit always matches `\d+` and a
letter or `_` always matches the identifier pattern). -/
def lexStep (st : Lexer) : Option Token × Lexer :=
  match st.rest with
  | [] => (none, st)
  | c :: _ =>
    if c = ' ' || c = '\t' then (none, skipWhitespace st)
    else if c = '#' then tokenizeComment st
    else if c = '@' then
      let p := tokenizeMouseCoord st
      (some p.1, p.2)
    else if c = '$' then
      let p := tokenizeVariable st
      (some p.1, p.2)
    else if c = '<' || c = '>' then tokenizeAngleBracket st
    else if c.isDigit then
      match tokenizeNumber st with
      | (some t, st') => (some t, st')
      | (none, _) =>
        if isIdentStart c then
          match tokenizeIdentifier st with
          | (some t, st') => (some t, st')
          | (none, _) =>
            let p := tokenizeSingleChar st
            (some p.1, p.2)
        else
          let p := tokenizeSingleChar st
          (some p.1, p.2)
    else if isIdentStart c then
      match tokenizeIdentifier st with
      | (some t, st') => (some t, st')
      | (none, _) =>
        let p := tokenizeSingleChar st
        (some p.1, p.2)
    else
      let p := tokenizeSingleChar st
      (some p.1, p.2)

/-- The `while` loop of `MSLLexer.tokenize` (lines 316-377): iterate
`lexStep` until the input is exhausted, collecting the appended tokens and
the final cursor state.  The structural fuel makes concrete runs reduce in
the kernel; each iteration consumes at least one character, so the fuel
`st.rest.length` passed by `tokenize` runs the loop to completion
(theorem `lexRun_consumes_all`). -/
def lexRun : Nat → Lexer → List Token × Lexer
  | 0, st => ([], st)
  | fuel + 1, st =>
    match st.rest with
    | [] => ([], st)
    | _ :: _ =>
      let p := lexStep st
      let r := lexRun fuel p.2
      (p.1.toList ++ r.1, r.2)

/-- `MSLLexer.tokenize` (lines 312-381): run the scanning loop over the whole
text, then append the single trailing `EOF` token built from the final
cursor state. -/
def tokenize (text : String) : List Token :=
  let st := mkLexer text
  let r := lexRun st.rest.length st
  r.1 ++ [⟨.EOF, [], r.2.line, r.2.column, r.2.position⟩]

/-! ### Bracket/token validator (`validate_msl_syntax`, msl_lexer.py 484-525) -/

/-- The `bracket_pairs` dictionary (lines 492-497): which closing kind each
opening kind expects.  `none` marks a non-opening kind. -/
def bracketPair : TokenType → Option TokenType
  | .LPAREN => some .RPAREN
  | .LBRACKET => some .RBRACKET
  | .LBRACE => some .RBRACE
  | .LANGLE => some .RANGLE
  | _ => none

/-- Membership in `bracket_pairs.values()` (line 503). -/
def isCloseBracket (t : TokenType) : Bool :=
  t = .RPAREN || t = .RBRACKET || t = .RBRACE || t = .RANGLE

/-- One diagnostic of `validate_msl_syntax`; each constructor stands for one
of the four f-string error messages, keeping the tokens interpolated into
the message. -/
inductive Diag where
  /-- "닫는 괄호가 매칭되지 않음" — a closing bracket with an empty stack. -/
  | unmatchedClose (t : Token)
  /-- "괄호 타입 불일치" — a closing bracket of a kind other than the one the
  innermost open bracket expects. -/
  | mismatch (openTok closeTok : Token)
  /-- "닫히지 않은 괄호" — an open bracket still on the stack at end of
  stream. -/
  | unclosed (openTok : Token)
  /-- "알 수 없는 토큰" — an `UNKNOWN` token anywhere in the stream. -/
  | unknownTok (t : Token)
  deriving DecidableEq, Repr

/-- The token scan of `validate_msl_syntax` (lines 499-511): an explicit
stack of open brackets, kept here with its top at the head.  Returns the
diagnostics in emission order together with the final stack. -/
def bracketScan : List Token → List (TokenType × Token) → List Diag × List (TokenType × Token)
  | [], stack => ([], stack)
  | t :: ts, stack =>
    match bracketPair t.type with
    | some _ => bracketScan ts ((t.type, t) :: stack)
    | none =>
      if isCloseBracket t.type then
        match stack with
        | [] =>
            let r := bracketScan ts []
            (.unmatchedClose t :: r.1, r.2)
        | (oty, otok) :: rest =>
            if bracketPair oty = some t.type then bracketScan ts rest
            else
              let r := bracketScan ts rest
              (.mismatch otok t :: r.1, r.2)
      else bracketScan ts stack

/-- `validate_msl_syntax(text)` (lines 484-525; the Lean name drops the
final word of the Python name): tokenize, scan brackets, then report every
still-open bracket (in stack insertion order, i.e. outermost first) and
every `UNKNOWN` token.  Returns `(no diagnostics, diagnostics)`. -/
def validateMsl (text : String) : Bool × List Diag :=
  let tokens := tokenize text
  let r := bracketScan tokens []
  let errors :=
    r.1 ++ r.2.reverse.map (fun p => Diag.unclosed p.2)
        ++ (tokens.filter fun t => t.type = .UNKNOWN).map Diag.unknownTok
  (errors.isEmpty, errors)

/-! ### Parser (`MSLParser`, msl_parser.py)

`MSLParser.parse` (msl_parser.py lines 60-109) is embedded twice.

`MSLParser.parse` below renders what the code actually does.  Its first
statement, `lexer = MSLLexer()` (line 79), invokes `MSLLexer.__init__`
(msl_lexer.py line 92) without the required positional parameter `text`, so
CPython raises `TypeError` before any lexing happens, for every input.
Every later line is equally incompatible with the imported lexer: it calls
`lexer.tokenize(text)` with an argument the method does not take, calls the
nonexistent `lexer.validate_tokens`, and dispatches on enum members
(`TokenType.SEQUENTIAL`, `DELAY_START`, ...) that msl_lexer.py's `TokenType`
does not define.

`parseRepaired` renders the recursive descent the same file unambiguously
intends (its module docstring, precedence table, `parse` docstring example
and `demo_parser` all describe successful parses).  The repairs, each noted
inline, are exactly: construct the lexer on the text; map the parser's token
names onto the lexer's enum following the operator tables both files agree
on (`,`=SEQUENTIAL=COMMA, `+`=SIMULTANEOUS=PLUS, `|`=PARALLEL=PIPE,
`>`=HOLD_CHAIN=GREATER, `&`=CONTINUOUS=AMPERSAND, `*`=REPEAT=STAR,
`~`=TOGGLE=TILDE, `(`=DELAY_START=LPAREN, `)`=DELAY_END=RPAREN,
`[`=HOLD_START=LBRACKET, `]`=HOLD_END=RBRACKET, `\x7b`=INTERVAL_START=LBRACE,
`\x7d`=INTERVAL_END=RBRACE, `<`=FADE_START=LANGLE); and build AST nodes with
the fields the parser assigns (the constructor-arity drift against
msl_ast.py is part of the same version skew).  Numeric literals are kept as
their source text instead of Python floats; the repeat count keeps the
integer part, matching `int(float(s))` on every literal of the `NUMBER`
token shape. -/

/-- Source position as the parser builds it: `Position(token.line,
token.column)` (msl_parser.py line 428; two arguments). -/
structure SrcPos where
  line : Nat
  column : Nat
  deriving DecidableEq, Repr

/-- AST nodes with the fields `MSLParser` assigns to them.  N-ary operator
nodes carry their ordered children; wrapper nodes carry exactly the one
child `add_child` gives them. -/
inductive Node where
  | seq (pos : SrcPos) (children : List Node)
  | simul (pos : SrcPos) (children : List Node)
  | par (pos : SrcPos) (children : List Node)
  | holdChain (pos : SrcPos) (children : List Node)
  | toggle (pos : SrcPos) (child : Node)
  | rep (pos : SrcPos) (count : Nat) (interval : Option (List Char)) (child : Node)
  | contin (pos : SrcPos) (duration : List Char) (child : Node)
  | delay (pos : SrcPos) (duration : List Char) (child : Node)
  | hold (pos : SrcPos) (duration : List Char) (child : Node)
  | fade (pos : SrcPos) (duration : List Char) (child : Node)
  | key (pos : SrcPos) (name : List Char)
  | var (pos : SrcPos) (name : List Char)
  | mouse (pos : SrcPos) (x y : Nat)
  | wheel (pos : SrcPos) (direction : Int) (amount : Nat)
  | number (pos : SrcPos) (value : List Char)
  deriving Repr

/-- The distinct `ParseError` raise sites of msl_parser.py, standing for
their message strings. -/
inductive PMsg where
  /-- line 89: "토큰 오류: ..." -/
  | tokenErrors
  /-- line 97: "빈 스크립트입니다" -/
  | emptyScript
  /-- lines 109/290: "예상치 못한 스크립트 끝" -/
  | unexpectedEnd
  /-- lines 104/354: "예상치 못한 토큰: ..." -/
  | unexpectedToken
  /-- line 132: "예상: ..., 실제: ..." -/
  | expectedGot (expected : TokenType)
  /-- line 225: "연속 입력(&) 뒤에는 시간(숫자)이 와야 합니다" -/
  | continuousNeedsNumber
  /-- line 247: "반복(*) 뒤에는 횟수(숫자)가 와야 합니다" -/
  | repeatNeedsCount
  /-- line 261: "반복 간격 뒤에는 시간(숫자)이 와야 합니다" -/
  | intervalNeedsNumber
  /-- line 376: "지연 시간 괄호 안에는 숫자가 와야 합니다" -/
  | delayNeedsNumber
  /-- line 393: "홀드 시간 괄호 안에는 숫자가 와야 합니다" -/
  | holdNeedsNumber
  /-- line 410: "페이드 시간 괄호 안에는 숫자가 와야 합니다" -/
  | fadeNeedsNumber
  /-- Model artifact: the structural fuel of `parseGo` ran out.  Never
  observed in any theorem below. -/
  | outOfFuel
  deriving DecidableEq, Repr

/-- A `ParseError`: message plus the optional offending token
(msl_parser.py lines 28-45). -/
structure PErr where
  msg : PMsg
  tok : Option Token
  deriving DecidableEq, Repr

/-- Parser cursor state: `self.tokens`, `self.current_position`,
`self.current_token` (msl_parser.py lines 53-55, 92-93). -/
structure PState where
  tokens : List Token
  pos : Nat
  cur : Option Token
  deriving DecidableEq, Repr

/-- `MSLParser.advance` (lines 111-118): move to the next token while one
remains, else set `current_token` to `None` (the index stays put). -/
def pAdvance (st : PState) : PState :=
  if st.pos < st.tokens.length - 1 then
    { st with pos := st.pos + 1, cur := st.tokens.get? (st.pos + 1) }
  else { st with cur := none }

/-- `MSLParser.match` (lines 138-142) for a single expected type. -/
def pMatch (st : PState) (ty : TokenType) : Bool :=
  match st.cur with
  | none => false
  | some t => t.type = ty

/-- `MSLParser.expect` (lines 127-136). -/
def pExpect (st : PState) (ty : TokenType) : Except PErr (Token × PState) :=
  match st.cur with
  | some t =>
      if t.type = ty then .ok (t, pAdvance st)
      else .error ⟨.expectedGot ty, some t⟩
  | none => .error ⟨.expectedGot ty, none⟩

/-- `MSLParser._get_position` (lines 425-432). -/
def getPosition (st : PState) (tok : Option Token) : SrcPos :=
  match tok with
  | some t => ⟨t.line, t.column⟩
  | none =>
      match st.cur with
      | some t => ⟨t.line, t.column⟩
      | none => ⟨1, 1⟩

/-- Digits to a natural number. -/
def digitsToNat (l : List Char) : Nat :=
  l.foldl (fun a c => a * 10 + (c.toNat - 48)) 0

/-- Python `int(float(s))` on a literal matching `\d+(\.\d+)?`: the integer
part. -/
def intOfNumberLit (l : List Char) : Nat :=
  digitsToNat (l.takeWhile Char.isDigit)

/-- Python `str.strip()` at ASCII precision. -/
def stripPySpace (l : List Char) : List Char :=
  ((l.dropWhile isPySpace).reverse.dropWhile isPySpace).reverse

/-- The four n-ary precedence levels, sharing the identical
parse-left-then-fold-while-operator-repeats loop shape of
`parse_sequential` / `parse_simultaneous` / `parse_parallel` /
`parse_hold_chain` (msl_parser.py lines 148-214). -/
inductive NAry where
  | seqOp | simulOp | parOp | holdOp
  deriving DecidableEq, Repr

/-- Operator token of each n-ary level (repair: the parser's
`SEQUENTIAL`/`SIMULTANEOUS`/`PARALLEL`/`HOLD_CHAIN` mapped onto the lexer's
enum per the `, + | >` operator tables of both files). -/
def naryTok : NAry → TokenType
  | .seqOp => .COMMA
  | .simulOp => .PLUS
  | .parOp => .PIPE
  | .holdOp => .GREATER

/-- Node constructor of each n-ary level. -/
def naryNode : NAry → SrcPos → List Node → Node
  | .seqOp => .seq
  | .simulOp => .simul
  | .parOp => .par
  | .holdOp => .holdChain

/-- The productions of the descent, used as the instruction argument of the
single fuel-indexed interpreter `parseGo`. -/
inductive Prod' where
  /-- `parse_sequential` ... `parse_hold_chain` (entry; also
  `parse_expression` at `nary .seqOp`). -/
  | nary (op : NAry)
  /-- The while-loop inside an n-ary production, carrying the node position
  and the children accumulated so far. -/
  | naryLoop (op : NAry) (pos : SrcPos) (acc : List Node)
  /-- `parse_continuous` (lines 216-236). -/
  | contin
  /-- `parse_repeat` (lines 238-271). -/
  | rep
  /-- `parse_toggle` (lines 273-285). -/
  | toggle
  /-- `parse_primary` (lines 287-354), with `parse_group` (356-365)
  inlined. -/
  | primary
  /-- `parse_timing_modifiers` applied to an already-built base node
  (lines 367-423). -/
  | timing (base : Node)

/-- Level below each n-ary level in the precedence chain. -/
def naryNext : NAry → Prod'
  | .seqOp => .nary .simulOp
  | .simulOp => .nary .parOp
  | .parOp => .nary .holdOp
  | .holdOp => .contin

/-- The recursive descent of `MSLParser` (msl_parser.py lines 144-432) as a
fuel-indexed interpreter; every Python method call recurses with one unit of
fuel less, so the recursion is structural and concrete runs reduce in the
kernel.  `parseRepaired` supplies fuel ample for its input (running out
would surface as the distinguished `.outOfFuel` error, which no theorem
below exhibits). -/
def parseGo : Nat → Prod' → PState → Except PErr (Node × PState)
  | 0, _, _ => .error ⟨.outOfFuel, none⟩
  | fuel + 1, p, st =>
    match p with
    | .nary op => do
      let (left, st) ← parseGo fuel (naryNext op) st
      if pMatch st (naryTok op) then
        -- e.g. `SequentialNode(self._get_position())` then `add_child(left)`
        parseGo fuel (.naryLoop op (getPosition st none) [left]) st
      else .ok (left, st)
    | .naryLoop op pos acc =>
      if pMatch st (naryTok op) then do
        let st := pAdvance st
        let (right, st) ← parseGo fuel (naryNext op) st
        parseGo fuel (.naryLoop op pos (acc ++ [right])) st
      else .ok (naryNode op pos acc, st)
    | .contin => do
      let (left, st) ← parseGo fuel .rep st
      if pMatch st .AMPERSAND then
        let st := pAdvance st
        if !pMatch st .NUMBER then .error ⟨.continuousNeedsNumber, st.cur⟩
        else do
          let (dur, st) ← pExpect st .NUMBER
          .ok (.contin (getPosition st none) dur.value left, st)
      else .ok (left, st)
    | .rep => do
      let (left, st) ← parseGo fuel .toggle st
      if pMatch st .STAR then
        let st := pAdvance st
        if !pMatch st .NUMBER then .error ⟨.repeatNeedsCount, st.cur⟩
        else do
          let (cnt, st) ← pExpect st .NUMBER
          let pos := getPosition st none
          if pMatch st .LBRACE then
            let st := pAdvance st
            if !pMatch st .NUMBER then .error ⟨.intervalNeedsNumber, st.cur⟩
            else do
              let (iv, st) ← pExpect st .NUMBER
              let (_, st) ← pExpect st .RBRACE
              .ok (.rep pos (intOfNumberLit cnt.value) (some iv.value) left, st)
          else .ok (.rep pos (intOfNumberLit cnt.value) none left, st)
      else .ok (left, st)
    | .toggle =>
      if pMatch st .TILDE then do
        let st := pAdvance st
        let (base, st) ← parseGo fuel .primary st
        .ok (.toggle (getPosition st none) base, st)
      else parseGo fuel .primary st
    | .primary =>
      match st.cur with
      | none => .error ⟨.unexpectedEnd, none⟩
      | some cur =>
        if cur.type = .LPAREN then do
          -- parse_group: `(` expression `)`; the source returns the inner
          -- expression directly, without a wrapper node (lines 356-365)
          let (_, st) ← pExpect st .LPAREN
          let (inner, st) ← parseGo fuel (.nary .seqOp) st
          let (_, st) ← pExpect st .RPAREN
          .ok (inner, st)
        else if cur.type = .KEY then do
          let (kt, st) ← pExpect st .KEY
          parseGo fuel (.timing (.key ⟨kt.line, kt.column⟩ kt.value)) st
        else if cur.type = .VARIABLE then do
          -- `var_token.value[1:]`: the lexer already stripped the `$`, so
          -- the stored name loses its first character (faithful to source)
          let (vt, st) ← pExpect st .VARIABLE
          .ok (.var ⟨vt.line, vt.column⟩ (vt.value.drop 1), st)
        else if cur.type = .MOUSE_COORD then do
          let (mt, st) ← pExpect st .MOUSE_COORD
          let inner := (mt.value.drop 2).dropLast
          let xs := inner.takeWhile fun c => c ≠ ','
          let ys := (inner.dropWhile fun c => c ≠ ',').drop 1
          .ok (.mouse ⟨mt.line, mt.column⟩
                (digitsToNat (stripPySpace xs)) (digitsToNat (stripPySpace ys)), st)
        else if cur.type = .WHEEL then
          -- wheel token values are `wheel_up`/`wheel_down`, which contain
          -- neither `+` nor `-`; `wheel_str.split('-')[1]` (line 336) hence
          -- raises IndexError, which `parse`'s `except IndexError` (line
          -- 108) re-raises as ParseError "예상치 못한 스크립트 끝"
          .error ⟨.unexpectedEnd, none⟩
        else if cur.type = .NUMBER then do
          let (nt, st) ← pExpect st .NUMBER
          .ok (.number ⟨nt.line, nt.column⟩ nt.value, st)
        else .error ⟨.unexpectedToken, some cur⟩
    | .timing base => do
      -- delay suffix `(N)`
      let (r1, st) ←
        (if pMatch st .LPAREN then
          let st := pAdvance st
          if !pMatch st .NUMBER then .error ⟨.delayNeedsNumber, st.cur⟩
          else do
            let (dt, st) ← pExpect st .NUMBER
            let (_, st) ← pExpect st .RPAREN
            .ok (Node.delay (getPosition st none) dt.value base, st)
        else .ok (base, st) : Except PErr (Node × PState))
      -- hold suffix `[N]`
      let (r2, st) ←
        (if pMatch st .LBRACKET then
          let st := pAdvance st
          if !pMatch st .NUMBER then .error ⟨.holdNeedsNumber, st.cur⟩
          else do
            let (ht, st) ← pExpect st .NUMBER
            let (_, st) ← pExpect st .RBRACKET
            .ok (Node.hold (getPosition st none) ht.value r1, st)
        else .ok (r1, st) : Except PErr (Node × PState))
      -- fade suffix `<N`: the source consumes `<` and the number but not
      -- the closing `>` (lines 405-421)
      if pMatch st .LANGLE then
        let st := pAdvance st
        if !pMatch st .NUMBER then .error ⟨.fadeNeedsNumber, st.cur⟩
        else do
          let (ft, st) ← pExpect st .NUMBER
          .ok (Node.fade (getPosition st none) ft.value r2, st)
      else .ok (r2, st)

/-- Modelled from the spec: msl_parser.py line 87 calls
`lexer.validate_tokens(self.tokens)`, a method defined nowhere in the
repository; the specification's parser contract (§4.2) prescribes no token
pre-validation pass between lexing and descent, so the missing method is
modelled as reporting no errors. -/
def validate_tokens (_tokens : List Token) : List String := []

/-- `MSLParser.parse` with the version-skew repairs listed above: tokenize,
drop `COMMENT` and `WHITESPACE` tokens (line 83), validate, reject an empty
script, run the descent from `parse_expression` ( = `parse_sequential`),
and require the cursor to rest on `EOF` (lines 102-104). -/
def parseRepaired (text : String) : Except PErr Node :=
  let tokens := (tokenize text).filter fun t =>
    match t.type with
    | .COMMENT | .WHITESPACE => false
    | _ => true
  if !(validate_tokens tokens).isEmpty then .error ⟨.tokenErrors, none⟩
  else
    match tokens with
    | [] => .error ⟨.emptyScript, none⟩
    | t0 :: _ =>
      if t0.type = .EOF then .error ⟨.emptyScript, none⟩
      else
        let st : PState := ⟨tokens, 0, tokens.get? 0⟩
        match parseGo (10 * tokens.length + 10) (.nary .seqOp) st with
        | .error e => .error e
        | .ok (ast, st) =>
          match st.cur with
          | some t => if t.type ≠ .EOF then .error ⟨.unexpectedToken, some t⟩ else .ok ast
          | none => .ok ast

/-- The Python exception that actually escapes `MSLParser.parse`. -/
inductive PyExc where
  | typeError (msg : String)
  deriving DecidableEq, Repr

/-- `MSLParser.parse` as the code stands (msl_parser.py lines 60-109): its
first statement `lexer = MSLLexer()` (line 79) calls `MSLLexer.__init__`
(msl_lexer.py line 92) without the required positional parameter `text`, so
CPython raises `TypeError` before tokenization, whatever the input; all
later statements are unreachable. -/
def MSLParser.parse (_text : String) : Except PyExc Node :=
  .error (.typeError "MSLLexer.__init__ missing 1 required positional argument: text")

/-! ### AST object model (`msl_ast.py`)

`MSLNode` objects are mutable Python objects forming a graph through the
`parent` and `children` attributes.  They are modelled as cells of an arena
(object identity = index), so the mutations of `add_child` are explicit
state updates. -/

/-- The `NodeType` enum of msl_ast.py (lines 14-39). -/
inductive NodeType where
  | KEY | NUMBER | VARIABLE | MOUSE_COORD | WHEEL
  | SEQUENTIAL | SIMULTANEOUS | HOLD_CHAIN | PARALLEL | TOGGLE | REPEAT | CONTINUOUS
  | DELAY | HOLD | INTERVAL | FADE
  | GROUP
  deriving DecidableEq, Repr

/-- The `Position` dataclass of msl_ast.py (lines 42-47): line, column and
absolute position. -/
structure AstPosition where
  line : Nat
  column : Nat
  position : Nat
  deriving DecidableEq, Repr

/-- The attribute state one `MSLNode` object carries (msl_ast.py lines
56-67): its kind, optional position, optional `value` (set by the
`ExpressionNode` subclasses), the `parent` back-reference and the ordered
`children` — the latter two as arena indices. -/
structure NodeObj where
  node_type : NodeType
  ast_position : Option AstPosition
  value : Option (List Char)
  parent : Option Nat
  children : List Nat
  deriving DecidableEq, Repr

/-- `MSLNode.__init__` (lines 56-67): fresh node with `parent = None` and no
children, appended to the arena; returns the new arena and the node's
index. -/
def nodeInit (arena : List NodeObj) (nt : NodeType) (pos : Option AstPosition)
    (val : Option (List Char)) : List NodeObj × Nat :=
  (arena ++ [⟨nt, pos, val, none, []⟩], arena.length)

/-- Replace the object at one arena index by applying `f` to it. -/
def modifyAt (f : NodeObj → NodeObj) : Nat → List NodeObj → List NodeObj
  | _, [] => []
  | 0, x :: xs => f x :: xs
  | n + 1, x :: xs => x :: modifyAt f n xs

/-- `MSLNode.add_child` (msl_ast.py lines 69-72): first `child.parent =
self`, then `self.children.append(child)`. -/
def add_child (arena : List NodeObj) (p c : Nat) : List NodeObj :=
  modifyAt (fun x => { x with children := x.children ++ [c] }) p
    (modifyAt (fun x => { x with parent := some p }) c arena)

/-! ## Theorems -/

theorem modifyAt_getElem_same (f : NodeObj → NodeObj) :
    ∀ (n : Nat) (l : List NodeObj), (modifyAt f n l)[n]? = l[n]?.map f := by
  intro n
  induction n with
  | zero => intro l; cases l <;> simp [modifyAt]
  | succ m ih => intro l; cases l <;> simp [modifyAt, ih]

theorem modifyAt_getElem_ne (f : NodeObj → NodeObj) :
    ∀ (n m : Nat) (l : List NodeObj), m ≠ n → (modifyAt f n l)[m]? = l[m]? := by
  intro n
  induction n with
  | zero =>
    intro m l h
    cases l with
    | nil => simp [modifyAt]
    | cons x xs =>
      cases m with
      | zero => exact absurd rfl h
      | succ k => simp [modifyAt]
  | succ j ih =>
    intro m l h
    cases l with
    | nil => simp [modifyAt]
    | cons x xs =>
      cases m with
      | zero => simp [modifyAt]
      | succ k => simpa [modifyAt] using ih k xs (fun hk => h (by simpa using hk))

theorem advance_rest (st : Lexer) : (advance st).rest = st.rest.tail := by
  cases hr : st.rest with
  | nil => simp [advance, hr]
  | cons c r => by_cases h : c = '\n' <;> simp [advance, hr, h]

theorem advanceN_rest : ∀ (n : Nat) (st : Lexer), (advanceN n st).rest = st.rest.drop n := by
  intro n
  induction n with
  | zero => intro st; rfl
  | succ m ih =>
    intro st
    rw [advanceN, ih, advance_rest, ← List.drop_one, List.drop_drop]
    congr 1
    omega

theorem ite_ne_pair (P : Prop) [Decidable P] (a b x y : TokenType)
    (ha : a ≠ x ∧ a ≠ y) (hb : b ≠ x ∧ b ≠ y) :
    (if P then a else b) ≠ x ∧ (if P then a else b) ≠ y := by
  by_cases h : P
  · rwa [if_pos h]
  · rwa [if_neg h]

theorem singleCharType_ne (c : Char) :
    singleCharType c ≠ .EOF ∧ singleCharType c ≠ .RANGLE := by
  unfold singleCharType
  refine ite_ne_pair _ _ _ _ _ (by decide) (ite_ne_pair _ _ _ _ _ (by decide)
    (ite_ne_pair _ _ _ _ _ (by decide) (ite_ne_pair _ _ _ _ _ (by decide)
    (ite_ne_pair _ _ _ _ _ (by decide) (ite_ne_pair _ _ _ _ _ (by decide)
    (ite_ne_pair _ _ _ _ _ (by decide) (ite_ne_pair _ _ _ _ _ (by decide)
    (ite_ne_pair _ _ _ _ _ (by decide) (ite_ne_pair _ _ _ _ _ (by decide)
    (ite_ne_pair _ _ _ _ _ (by decide) (ite_ne_pair _ _ _ _ _ (by decide)
    (ite_ne_pair _ _ _ _ _ (by decide) (by decide)))))))))))))

theorem tokenizeSingleChar_cons_type (st : Lexer) (c : Char) (r : List Char)
    (h : st.rest = c :: r) : (tokenizeSingleChar st).1.type = singleCharType c := by
  rw [tokenizeSingleChar, h]

theorem tokenizeComment_some_type (st st' : Lexer) (t : Token)
    (h : tokenizeComment st = (some t, st')) : t.type = .COMMENT := by
  unfold tokenizeComment at h
  cases hm : matchComment st.rest <;> rw [hm] at h <;> simp_all
  exact congrArg Token.type h.1.symm

theorem tokenizeMouseCoord_type (st : Lexer) :
    (tokenizeMouseCoord st).1.type = .MOUSE_COORD ∨
      (tokenizeMouseCoord st).1.type = .UNKNOWN := by
  unfold tokenizeMouseCoord
  cases hm : matchMouseCoord st.rest with
  | none => right; rfl
  | some x =>
    obtain ⟨xs, ys, len⟩ := x
    left; rfl

theorem tokenizeVariable_type (st : Lexer) :
    (tokenizeVariable st).1.type = .VARIABLE ∨ (tokenizeVariable st).1.type = .UNKNOWN := by
  unfold tokenizeVariable
  cases hm : matchVariable st.rest with
  | none => right; rfl
  | some x => left; rfl

theorem tokenizeAngleBracket_some_type (st st' : Lexer) (t : Token)
    (h : tokenizeAngleBracket st = (some t, st')) :
    t.type = .LANGLE ∨ t.type = .GREATER := by
  unfold tokenizeAngleBracket at h
  cases hr : st.rest with
  | nil => rw [hr] at h; simp_all
  | cons c r =>
    rw [hr] at h
    by_cases h1 : c = '<'
    · simp [h1] at h
      left; exact congrArg Token.type h.1.symm
    · by_cases h2 : c = '>'
      · simp [h1, h2] at h
        right; exact congrArg Token.type h.1.symm
      · simp [h1, h2] at h

theorem tokenizeNumber_some_type (st st' : Lexer) (t : Token)
    (h : tokenizeNumber st = (some t, st')) : t.type = .NUMBER := by
  unfold tokenizeNumber at h
  cases hm : matchNumber st.rest <;> rw [hm] at h <;> simp_all
  exact congrArg Token.type h.1.symm

theorem tokenizeIdentifier_some_type (st st' : Lexer) (t : Token)
    (h : tokenizeIdentifier st = (some t, st')) :
    t.type = .WHEEL ∨ t.type = .KEY := by
  unfold tokenizeIdentifier at h
  cases hm : matchIdentifier st.rest <;> rw [hm] at h
  · simp at h
  · simp only [Prod.mk.injEq, Option.some.injEq] at h
    rcases h with ⟨h1, -⟩
    subst h1
    dsimp only
    split
    · left; rfl
    · right; rfl

/-- No token emitted by one iteration of the scanning loop has type `EOF`
(the trailing `EOF` is appended once, after the loop) or type `RANGLE`
(`tokenize_angle_bracket` maps `>` to `GREATER`, never `RANGLE`). -/
theorem lexStep_no_eof_rangle (st : Lexer) (c : Char) (r : List Char)
    (hr : st.rest = c :: r) (t : Token) (ht : (lexStep st).1 = some t) :
    t.type ≠ .EOF ∧ t.type ≠ .RANGLE := by
  rw [lexStep, hr] at ht
  dsimp only at ht
  split at ht
  · simp at ht
  · split at ht
    · rcases hc : tokenizeComment st with ⟨tc, st'⟩
      rw [hc] at ht
      dsimp only at ht
      rw [ht] at hc
      rw [tokenizeComment_some_type st st' t hc]
      exact ⟨by decide, by decide⟩
    · split at ht
      · rw [Option.some.injEq] at ht
        subst ht
        rcases tokenizeMouseCoord_type st with h | h <;> rw [h] <;>
          exact ⟨by decide, by decide⟩
      · split at ht
        · rw [Option.some.injEq] at ht
          subst ht
          rcases tokenizeVariable_type st with h | h <;> rw [h] <;>
            exact ⟨by decide, by decide⟩
        · split at ht
          · rcases hc : tokenizeAngleBracket st with ⟨tc, st'⟩
            rw [hc] at ht
            dsimp only at ht
            rw [ht] at hc
            rcases tokenizeAngleBracket_some_type st st' t hc with h | h <;> rw [h] <;>
              exact ⟨by decide, by decide⟩
          · split at ht
            · -- digit branch, with the Python fall-through replicated
              split at ht
              · rename_i tc st' hc
                rw [Option.some.injEq] at ht
                subst ht
                rw [tokenizeNumber_some_type st st' tc hc]
                exact ⟨by decide, by decide⟩
              · split at ht
                · split at ht
                  · rename_i tc st' hc
                    rw [Option.some.injEq] at ht
                    subst ht
                    rcases tokenizeIdentifier_some_type st st' tc hc with h | h <;>
                      rw [h] <;> exact ⟨by decide, by decide⟩
                  · rw [Option.some.injEq] at ht
                    subst ht
                    rw [tokenizeSingleChar_cons_type st c r hr]
                    exact singleCharType_ne c
                · rw [Option.some.injEq] at ht
                  subst ht
                  rw [tokenizeSingleChar_cons_type st c r hr]
                  exact singleCharType_ne c
            · split at ht
              · -- identifier branch
                split at ht
                · rename_i tc st' hc
                  rw [Option.some.injEq] at ht
                  subst ht
                  rcases tokenizeIdentifier_some_type st st' tc hc with h | h <;>
                    rw [h] <;> exact ⟨by decide, by decide⟩
                · rw [Option.some.injEq] at ht
                  subst ht
                  rw [tokenizeSingleChar_cons_type st c r hr]
                  exact singleCharType_ne c
              · -- single-character fallback
                rw [Option.some.injEq] at ht
                subst ht
                rw [tokenizeSingleChar_cons_type st c r hr]
                exact singleCharType_ne c

/-- No token collected by the scanning loop has type `EOF` or `RANGLE`. -/
theorem lexRun_no_eof_rangle (fuel : Nat) : ∀ (st : Lexer) (t : Token),
    t ∈ (lexRun fuel st).1 → t.type ≠ .EOF ∧ t.type ≠ .RANGLE := by
  induction fuel with
  | zero => intro st t ht; simp [lexRun] at ht
  | succ n ih =>
    intro st t ht
    rw [lexRun] at ht
    rcases hr : st.rest with - | ⟨c, r⟩
    · rw [hr] at ht
      simp at ht
    · rw [hr] at ht
      dsimp only at ht
      rw [List.mem_append] at ht
      rcases ht with hstep | hmem
      · rcases hs : (lexStep st).1 with - | tc
        · rw [hs] at hstep; simp at hstep
        · rw [hs] at hstep
          simp only [Option.toList_some, List.mem_singleton] at hstep
          subst hstep
          exact lexStep_no_eof_rangle st c r hr t hs
      · exact ih _ _ hmem

theorem length_dropWhile_le (p : Char → Bool) (l : List Char) :
    (l.dropWhile p).length ≤ l.length :=
  (List.dropWhile_sublist p).length_le

theorem matchNumber_pos (l m : List Char) (h : matchNumber l = some m) : 1 ≤ m.length := by
  unfold matchNumber at h
  by_cases hd : (l.takeWhile Char.isDigit).isEmpty
  · rw [if_pos hd] at h
    simp at h
  · rw [if_neg hd] at h
    have hds : 1 ≤ (l.takeWhile Char.isDigit).length := by
      cases he : l.takeWhile Char.isDigit with
      | nil => rw [he] at hd; simp at hd
      | cons a as => simp [he]
    split at h
    · dsimp only at h
      split at h
      · rw [Option.some.injEq] at h
        subst h
        exact hds
      · rw [Option.some.injEq] at h
        subst h
        simp only [List.length_append, List.length_cons]
        omega
    · rw [Option.some.injEq] at h
      subst h
      exact hds

theorem matchIdentifier_pos (l m : List Char) (h : matchIdentifier l = some m) :
    1 ≤ m.length := by
  unfold matchIdentifier at h
  cases l with
  | nil => simp at h
  | cons a as =>
    by_cases hs : isIdentStart a
    · simp only [hs, if_true, Option.some.injEq] at h
      subst h
      simp
    · simp [hs] at h

theorem matchMouseCoord_pos (l : List Char) (xs ys : List Char) (n : Nat)
    (h : matchMouseCoord l = some (xs, ys, n)) : 1 ≤ n ∧ n ≤ l.length := by
  unfold matchMouseCoord at h
  split at h
  · rename_i r0
    split at h
    · rename_i r2 heq2
      have hr2 : r2.length + 1 ≤ r0.length := by
        have h1 := congrArg List.length heq2
        simp at h1
        have h2 := length_dropWhile_le isPySpace r0
        omega
      dsimp only at h
      split at h
      · simp at h
      · rename_i hxs
        split at h
        · rename_i r5 heq5
          have hr5 : r5.length + 1 ≤ r2.length := by
            have h1 := congrArg List.length heq5
            simp at h1
            have h2 := length_dropWhile_le isPySpace
              ((r2.dropWhile isPySpace).drop ((r2.dropWhile isPySpace).takeWhile Char.isDigit).length)
            have h3 := List.length_drop ((r2.dropWhile isPySpace).takeWhile Char.isDigit).length
              (r2.dropWhile isPySpace)
            have h4 := length_dropWhile_le isPySpace r2
            omega
          split at h
          · simp at h
          · rename_i hys
            split at h
            · rename_i r8 heq8
              have hr8 : r8.length + 1 ≤ r5.length := by
                have h1 := congrArg List.length heq8
                simp at h1
                have h2 := length_dropWhile_le isPySpace
                  ((r5.dropWhile isPySpace).drop ((r5.dropWhile isPySpace).takeWhile Char.isDigit).length)
                have h3 := List.length_drop ((r5.dropWhile isPySpace).takeWhile Char.isDigit).length
                  (r5.dropWhile isPySpace)
                have h4 := length_dropWhile_le isPySpace r5
                omega
              rw [Option.some.injEq, Prod.mk.injEq, Prod.mk.injEq] at h
              obtain ⟨-, -, hn⟩ := h
              subst hn
              simp only [List.length_cons]
              omega
            · simp at h
        · simp at h
    · simp at h
  · simp at h

theorem tokenizeNumber_some_state (st st2 : Lexer) (t : Token)
    (h : tokenizeNumber st = (some t, st2)) :
    ∃ n, 1 ≤ n ∧ st2 = advanceN n st := by
  unfold tokenizeNumber at h
  cases hm : matchNumber st.rest <;> rw [hm] at h
  · simp at h
  · rename_i m
    rw [Prod.mk.injEq] at h
    exact ⟨m.length, matchNumber_pos st.rest m hm, h.2.symm⟩

theorem tokenizeIdentifier_some_state (st st2 : Lexer) (t : Token)
    (h : tokenizeIdentifier st = (some t, st2)) :
    ∃ n, 1 ≤ n ∧ st2 = advanceN n st := by
  unfold tokenizeIdentifier at h
  cases hm : matchIdentifier st.rest <;> rw [hm] at h
  · simp at h
  · rename_i m
    dsimp only at h
    rw [Prod.mk.injEq] at h
    exact ⟨m.length, matchIdentifier_pos st.rest m hm, h.2.symm⟩

/-- Every iteration of the scanning loop consumes at least one character. -/
theorem lexStep_consumes (st : Lexer) (c : Char) (r : List Char)
    (hr : st.rest = c :: r) : (lexStep st).2.rest.length < st.rest.length := by
  have hadv : (advance st).rest.length < (c :: r).length := by
    rw [advance_rest, hr]
    simp
  have hadvN : ∀ n : Nat, 1 ≤ n → (advanceN n st).rest.length < (c :: r).length := by
    intro n hn
    rw [advanceN_rest, List.length_drop, hr]
    simp only [List.length_cons]
    omega
  rw [lexStep, hr]
  dsimp only
  split
  · -- whitespace: skip_whitespace advances once per leading blank
    rename_i hcond
    unfold skipWhitespace
    rw [hr, List.takeWhile_cons, if_pos hcond]
    refine hadvN _ ?_
    simp only [List.length_cons]
    omega
  · split
    · -- comment
      rename_i hcond
      have hc : c = '#' := by simpa using hcond
      subst hc
      rw [tokenizeComment, hr]
      refine hadvN _ ?_
      simp only [List.length_cons]
      omega
    · split
      · -- mouse coordinate
        rw [tokenizeMouseCoord]
        cases hm : matchMouseCoord st.rest with
        | none => exact hadv
        | some x =>
          obtain ⟨xs, ys, n⟩ := x
          exact hadvN n (matchMouseCoord_pos st.rest xs ys n hm).1
      · split
        · -- variable
          rw [tokenizeVariable]
          cases hm : matchVariable st.rest with
          | none => exact hadv
          | some name =>
            refine hadvN _ ?_
            omega
        · split
          · -- angle bracket
            rw [tokenizeAngleBracket, hr]
            dsimp only
            split
            · exact hadv
            · split
              · exact hadv
              · exact hadv
          · split
            · -- digit branch with fall-through
              split
              · rename_i tc st2 hm
                obtain ⟨n, hn, rfl⟩ := tokenizeNumber_some_state st st2 tc hm
                exact hadvN n hn
              · split
                · split
                  · rename_i tc st2 hm
                    obtain ⟨n, hn, rfl⟩ := tokenizeIdentifier_some_state st st2 tc hm
                    exact hadvN n hn
                  · rw [tokenizeSingleChar, hr]
                    exact hadv
                · rw [tokenizeSingleChar, hr]
                  exact hadv
            · split
              · -- identifier branch with fall-through
                split
                · rename_i tc st2 hm
                  obtain ⟨n, hn, rfl⟩ := tokenizeIdentifier_some_state st st2 tc hm
                  exact hadvN n hn
                · rw [tokenizeSingleChar, hr]
                  exact hadv
              · -- single-character fallback
                rw [tokenizeSingleChar, hr]
                exact hadv

/-- The fuel `tokenize` passes to the scanning loop is sufficient: the loop
stops only because the whole input has been consumed. -/
theorem lexRun_consumes_all : ∀ (fuel : Nat) (st : Lexer),
    st.rest.length ≤ fuel → (lexRun fuel st).2.rest = [] := by
  intro fuel
  induction fuel with
  | zero =>
    intro st h
    have : st.rest = [] := List.length_eq_zero.mp (by omega)
    simpa [lexRun] using this
  | succ n ih =>
    intro st h
    rw [lexRun]
    cases hr : st.rest with
    | nil => simpa using hr
    | cons c r =>
      dsimp only
      apply ih
      have h2 := lexStep_consumes st c r hr
      rw [hr] at h2 h
      simp only [List.length_cons] at h2 h
      omega

theorem lexRun_filter_eq_nil (p : Token → Bool)
    (hp : ∀ t, t.type ≠ .EOF ∧ t.type ≠ .RANGLE → p t = false)
    (fuel : Nat) (st : Lexer) : (lexRun fuel st).1.filter p = [] := by
  rw [List.filter_eq_nil_iff]
  intro t ht
  rw [hp t (lexRun_no_eof_rangle fuel st t ht)]
  simp

/-- The lexer never produces a `RANGLE` token: `tokenize_angle_bracket` maps
every `>` to `GREATER` (msl_lexer.py lines 273-276), deferring the
fade-end/hold-chain ambiguity to the parser, and the trailing token is
`EOF`.  Consequently `validate_msl_syntax`, whose `bracket_pairs` table
expects `RANGLE` to close a `LANGLE`, can never see a fade suffix closed. -/
theorem tokenize_never_rangle (text : String) :
    (tokenize text).filter (fun t => t.type = TokenType.RANGLE) = [] := by
  unfold tokenize
  rw [List.filter_append, lexRun_filter_eq_nil]
  · rfl
  · intro t ht
    simp only [decide_eq_false_iff_not]
    exact ht.2

/-- One step of the scanning loop on an unrecognized character: it is
emitted as a single one-character `UNKNOWN` token carrying the line, column
and offset of the cursor, and scanning resumes right after it. -/
theorem lexStep_unknown (st : Lexer) (c : Char) (r : List Char)
    (hr : st.rest = c :: r) (hrec : recognizedChar c = false) :
    lexStep st =
      (some ⟨.UNKNOWN, [c], st.line, st.column, st.position⟩, advance st) := by
  simp only [recognizedChar, Bool.or_eq_false_iff, Bool.not_eq_false',
    decide_eq_false_iff_not, decide_eq_true_eq] at hrec
  obtain ⟨⟨⟨⟨⟨⟨⟨⟨⟨h1, h2⟩, h3⟩, h4⟩, h5⟩, h6⟩, h7⟩, h8⟩, h9⟩, h10⟩ := hrec
  rw [lexStep, hr]
  dsimp only
  rw [if_neg (by simp [h1, h2]), if_neg h3, if_neg h4, if_neg h5,
    if_neg (by simp [h6, h7]), if_neg (by simp [h8]), if_neg (by simp [h9]),
    tokenizeSingleChar, hr]
  dsimp only
  rw [h10]

/-- One unfolding of the scanning loop while input remains. -/
theorem lexRun_cons (fuel : Nat) (st : Lexer) (c : Char) (r : List Char)
    (hr : st.rest = c :: r) :
    lexRun (fuel + 1) st =
      ((lexStep st).1.toList ++ (lexRun fuel (lexStep st).2).1,
        (lexRun fuel (lexStep st).2).2) := by
  rw [lexRun, hr]

/-- C1: the claim states that `parse(text)` returns an AST root or raises a
`ParseError`, and that no other exception type escapes.  In fact a
`TypeError` escapes on every input: the very first statement of `parse`
constructs `MSLLexer` without the required `text` argument. -/
theorem parse_always_raises_TypeError : ∀ text : String,
    MSLParser.parse text =
      .error (.typeError "MSLLexer.__init__ missing 1 required positional argument: text") :=
  fun _ => rfl

/-- C3: precedence of `,` versus `+` on the input `"A,B+C"`.  The actual
`parse` raises `TypeError` (see C1); the descent the parser file intends
(`parseRepaired`) yields exactly the claimed shape
`Sequential[Key(a), Simultaneous[Key(b), Key(c)]]`. -/
theorem parse_precedence_A_B_plus_C :
    MSLParser.parse "A,B+C" =
        .error (.typeError "MSLLexer.__init__ missing 1 required positional argument: text") ∧
      parseRepaired "A,B+C" =
        .ok (.seq ⟨1, 2⟩
          [.key ⟨1, 1⟩ ['a'],
           .simul ⟨1, 4⟩ [.key ⟨1, 3⟩ ['b'], .key ⟨1, 5⟩ ['c']]]) :=
  ⟨rfl, rfl⟩

/-- C4: left-associative flattening on `"A,B,C"`.  The actual `parse` raises
`TypeError` (see C1); the intended descent yields one flat `Sequential` node
with the three keys as ordered children, not a nested pair. -/
theorem parse_flattening_A_B_C :
    MSLParser.parse "A,B,C" =
        .error (.typeError "MSLLexer.__init__ missing 1 required positional argument: text") ∧
      parseRepaired "A,B,C" =
        .ok (.seq ⟨1, 2⟩
          [.key ⟨1, 1⟩ ['a'], .key ⟨1, 3⟩ ['b'], .key ⟨1, 5⟩ ['c']]) :=
  ⟨rfl, rfl⟩

/-- C5: a `*` with no numeric operand.  The actual `parse` raises
`TypeError` (see C1); the intended descent raises the `ParseError`
"반복(*) 뒤에는 횟수(숫자)가 와야 합니다" carrying the token right after the
`*` (here the end-of-input token, line 1 column 3, offset 2 — the `*` sits
at column 2, offset 1). -/
theorem parse_missing_repeat_operand_Q_star :
    MSLParser.parse "Q*" =
        .error (.typeError "MSLLexer.__init__ missing 1 required positional argument: text") ∧
      parseRepaired "Q*" =
        .error ⟨.repeatNeedsCount, some ⟨.EOF, [], 1, 3, 2⟩⟩ :=
  ⟨rfl, rfl⟩

/-- C6: the bracket validator on `"[Q,500)"` emits exactly one mismatched-
bracket diagnostic (the `[` at column 1 against the `)` at column 7), and on
`"[Q,500"` exactly one unclosed-bracket diagnostic; both runs return
normally (`validateMsl` is a total function). -/
theorem validator_bracket_diagnostics :
    (validateMsl "[Q,500)").2 =
        [.mismatch ⟨.LBRACKET, ['['], 1, 1, 0⟩ ⟨.RPAREN, [')'], 1, 7, 6⟩] ∧
      (validateMsl "[Q,500").2 = [.unclosed ⟨.LBRACKET, ['['], 1, 1, 0⟩] :=
  ⟨rfl, rfl⟩

/-- C8 counterexample: the claim states that the token list returned by
`tokenize` contains no token for a line comment.  In fact `tokenize`
emits a `COMMENT` token: on the input `"#x"` the output contains exactly
one. -/
theorem tokenize_emits_comment_token :
    ((tokenize "#x").filter fun t => t.type = TokenType.COMMENT) =
      [⟨.COMMENT, ['#', 'x'], 1, 1, 0⟩] :=
  rfl

/-- C9: `"@(10,20)"` and `"@( 10 , 20 )"` each lex to exactly one
`MOUSE_COORD` token, and the two tokens are equal — both carry the
normalized value `@(10,20)` (hence x = 10, y = 20), and here even the same
line, column and offset. -/
theorem tokenize_mouse_coord_whitespace_tolerance :
    ((tokenize "@(10,20)").filter fun t => t.type = TokenType.MOUSE_COORD) =
        [⟨.MOUSE_COORD, "@(10,20)".data, 1, 1, 0⟩] ∧
      ((tokenize "@( 10 , 20 )").filter fun t => t.type = TokenType.MOUSE_COORD) =
        [⟨.MOUSE_COORD, "@(10,20)".data, 1, 1, 0⟩] :=
  ⟨rfl, rfl⟩

/-- C2: `tokenize` is total (in this model a plain function
`String → List Token`; no code path raises), its result is terminated by
exactly one `EOF` token — the `EOF`-filter of the output has length one,
and the last token is the `EOF` — and any character matched by no
recognized lexical form is emitted by its loop iteration as a single
one-character `UNKNOWN` token carrying the cursor's line, column and
offset, with scanning resuming immediately after that character. -/
theorem tokenize_one_eof_and_unknown_char :
    ∀ text : String,
      ((tokenize text).filter fun t => t.type = TokenType.EOF).length = 1 ∧
      ((tokenize text).getLast?).map Token.type = some TokenType.EOF ∧
      (∀ (fuel : Nat) (st : Lexer) (c : Char) (r : List Char),
        st.rest = c :: r → recognizedChar c = false →
        lexRun (fuel + 1) st =
          ((⟨.UNKNOWN, [c], st.line, st.column, st.position⟩ : Token) ::
              (lexRun fuel (advance st)).1,
            (lexRun fuel (advance st)).2)) ∧
      (∀ (fuel : Nat) (st : Lexer) (r : List Char),
        st.rest = '@' :: r → matchMouseCoord st.rest = none →
        lexRun (fuel + 1) st =
          ((⟨.UNKNOWN, ['@'], st.line, st.column, st.position⟩ : Token) ::
              (lexRun fuel (advance st)).1,
            (lexRun fuel (advance st)).2)) ∧
      (∀ (fuel : Nat) (st : Lexer) (r : List Char),
        st.rest = '$' :: r → matchVariable st.rest = none →
        lexRun (fuel + 1) st =
          ((⟨.UNKNOWN, ['$'], st.line, st.column, st.position⟩ : Token) ::
              (lexRun fuel (advance st)).1,
            (lexRun fuel (advance st)).2)) := by
  intro text
  refine ⟨?_, ?_, ?_, ?_, ?_⟩
  · unfold tokenize
    dsimp only
    rw [List.filter_append, lexRun_filter_eq_nil]
    · rfl
    · intro t ht
      simp only [decide_eq_false_iff_not]
      exact ht.1
  · unfold tokenize
    dsimp only
    rw [List.getLast?_concat]
    rfl
  · intro fuel st c r hr hrec
    rw [lexRun_cons fuel st c r hr, lexStep_unknown st c r hr hrec]
    rfl
  · intro fuel st r hr hm
    have h1 : lexStep st = (some (tokenizeMouseCoord st).1, (tokenizeMouseCoord st).2) := by
      rw [lexStep, hr]
      exact rfl
    rw [lexRun_cons fuel st '@' r hr, h1, tokenizeMouseCoord, hm]
    exact rfl
  · intro fuel st r hr hm
    have h1 : lexStep st = (some (tokenizeVariable st).1, (tokenizeVariable st).2) := by
      rw [lexStep, hr]
      exact rfl
    rw [lexRun_cons fuel st '$' r hr, h1, tokenizeVariable, hm]
    exact rfl

/-- C2 witness: the first conjunct at the concrete input `"a"`, and the
unknown-character clause at a cursor standing on `'^'` (a character no
lexical form recognizes), both hypotheses discharged concretely. -/
theorem tokenize_one_eof_and_unknown_char_witness :
    recognizedChar '^' = false ∧
    matchMouseCoord ['@'] = none ∧
    matchVariable ['$'] = none ∧
    ((tokenize "a").filter fun t => t.type = TokenType.EOF).length = 1 ∧
    lexRun 1 ⟨['^'], 0, 1, 1⟩ =
      ([⟨TokenType.UNKNOWN, ['^'], 1, 1, 0⟩], advance ⟨['^'], 0, 1, 1⟩) ∧
    lexRun 1 ⟨['@'], 0, 1, 1⟩ =
      ([⟨TokenType.UNKNOWN, ['@'], 1, 1, 0⟩], advance ⟨['@'], 0, 1, 1⟩) ∧
    lexRun 1 ⟨['$'], 0, 1, 1⟩ =
      ([⟨TokenType.UNKNOWN, ['$'], 1, 1, 0⟩], advance ⟨['$'], 0, 1, 1⟩) := by
  refine ⟨by decide, by decide, by decide,
    (tokenize_one_eof_and_unknown_char "a").1, ?_, ?_, ?_⟩
  · exact (tokenize_one_eof_and_unknown_char "a").2.2.1 0 ⟨['^'], 0, 1, 1⟩ '^' [] rfl
      (by decide)
  · exact (tokenize_one_eof_and_unknown_char "a").2.2.2.1 0 ⟨['@'], 0, 1, 1⟩ [] rfl
      (by decide)
  · exact (tokenize_one_eof_and_unknown_char "a").2.2.2.2 0 ⟨['$'], 0, 1, 1⟩ [] rfl
      (by decide)

/-- C7: the claim states that every input whose brackets are balanced and
properly nested — including a fade suffix `<N>` closed by `>` such as
`"W<500>"` — draws no bracket diagnostic from the validator.  In fact the
validator reports exactly one unclosed-bracket diagnostic for `"W<500>"`:
its `bracket_pairs` table expects a `RANGLE` to close the `LANGLE`, but the
lexer maps every `>` to `GREATER` and never emits `RANGLE` (second
conjunct), so a `LANGLE` can never be closed. -/
theorem validator_flags_balanced_fade :
    (validateMsl "W<500>").2 = [.unclosed ⟨.LANGLE, ['<'], 1, 2, 1⟩] ∧
    ∀ text : String,
      (tokenize text).filter (fun t => t.type = TokenType.RANGLE) = [] :=
  ⟨rfl, tokenize_never_rangle⟩

/-- C8 amended: a `#` comment is not discarded by the lexer — the loop
iteration that meets `#` emits a single `COMMENT` token whose value runs
from the `#` through the end of the line, and scanning resumes after the
comment.  (It is the parser, msl_parser.py line 83, that later filters
`COMMENT` tokens out of its token list.) -/
theorem lexRun_comment_token (fuel : Nat) (r : List Char) (pos line col : Nat) :
    lexRun (fuel + 1) ⟨'#' :: r, pos, line, col⟩ =
      ((⟨.COMMENT, '#' :: r.takeWhile (fun ch => ch ≠ '\n'), line, col, pos⟩ : Token) ::
          (lexRun fuel (advanceN ('#' :: r.takeWhile fun ch => ch ≠ '\n').length
            ⟨'#' :: r, pos, line, col⟩)).1,
        (lexRun fuel (advanceN ('#' :: r.takeWhile fun ch => ch ≠ '\n').length
            ⟨'#' :: r, pos, line, col⟩)).2) :=
  rfl

/-- C10 counterexample: the claim states that no AST node stores a
back-reference to its parent and that a node's state consists only of kind,
value fields, position and children.  In fact every `MSLNode` carries a
`parent` attribute and `add_child` assigns it: linking a fresh `KEY` node
(index 1) under a fresh `SEQUENTIAL` node (index 0) — exactly what
`parse_sequential` does — leaves the child storing `parent = ` node 0. -/
theorem add_child_stores_parent_backref :
    (let r1 := nodeInit [] .SEQUENTIAL none none
     let r2 := nodeInit r1.1 .KEY none (some ['a'])
     ((add_child r2.1 r1.2 r2.2)[r2.2]?).map NodeObj.parent) = some (some 0) :=
  rfl

/-- C10 amended: `MSLNode.__init__` creates every node with `parent = None`,
and `add_child parent child` stores a back-reference: afterwards the child's
`parent` attribute holds the parent node. -/
theorem node_parent_backref_semantics :
    (∀ (arena : List NodeObj) (nt : NodeType) (pos : Option AstPosition)
        (val : Option (List Char)),
      ((nodeInit arena nt pos val).1)[(nodeInit arena nt pos val).2]? =
        some ⟨nt, pos, val, none, []⟩) ∧
    (∀ (arena : List NodeObj) (p c : Nat) (x : NodeObj), arena[c]? = some x →
      ((add_child arena p c)[c]?).map NodeObj.parent = some (some p)) := by
  constructor
  · intro arena nt pos val
    simp [nodeInit]
  · intro arena p c x hx
    unfold add_child
    by_cases hpc : p = c
    · subst hpc
      rw [modifyAt_getElem_same, modifyAt_getElem_same, hx]
      rfl
    · rw [modifyAt_getElem_ne _ _ _ _ (fun h => hpc h.symm), modifyAt_getElem_same, hx]
      rfl

/-- C10 amended, witness: the general statement applied to the concrete
two-node arena of the counterexample. -/
theorem node_parent_backref_semantics_witness :
    ((add_child [⟨.SEQUENTIAL, none, none, none, []⟩, ⟨.KEY, none, some ['a'], none, []⟩]
        0 1)[1]?).map NodeObj.parent = some (some 0) :=
  node_parent_backref_semantics.2
    [⟨.SEQUENTIAL, none, none, none, []⟩, ⟨.KEY, none, some ['a'], none, []⟩]
    0 1 ⟨.KEY, none, some ['a'], none, []⟩ rfl

end MSL
